import Mathlib

/-!
Verification of the streamhub IPTV client core: a shallow embedding of the
playlist ingestion pipeline (M3U parser, content classifier, Xtream adapter),
the IndexedDB-backed local store, the query/pagination layer, the
favorites-preserving merge, and the HLS manifest rewriting proxy, together
with theorems settling the specified properties.

Conventions used throughout the embedding:
* JavaScript strings are Lean String values; the handful of locale or
  unicode-sensitive operations (toLowerCase, trim) are modelled by the
  corresponding Lean primitives, which agree with JavaScript on ASCII input.
* JavaScript "x || y" on optional values is modelled explicitly, with
  undefined, the empty string and the number 0 being falsy.
* crypto.randomUUID produces a fresh opaque identifier per emitted item;
  freshness and opacity are modelled by numbering items consecutively.
* The literal regular expressions of the source are modelled by executable
  scanning functions with JavaScript semantics (leftmost match, greedy
  quantifiers with backtracking, case folding under the i flag).
-/

namespace StreamHub

/-- Whether the pattern occurs as a contiguous run starting at some position
of the character list. -/
def containsAux (pat : List Char) : List Char → Bool
  | [] => pat.isEmpty
  | c :: rest => pat.isPrefixOf (c :: rest) || containsAux pat rest

/-- The model of the JS expression "s.includes(pat)": the pattern occurs as a
contiguous substring. -/
def strContains (s pat : String) : Bool :=
  containsAux pat.data s.data

/-- The model of "s.startsWith(pat)". -/
def strStartsWith (s pat : String) : Bool :=
  pat.data.isPrefixOf s.data

/-- The model of "s.toLowerCase()"; Lean character lowercasing agrees with
JavaScript on ASCII input. -/
def lowerStr (s : String) : String :=
  String.mk (s.data.map Char.toLower)

/-- Characters removed by "s.trim()": ASCII whitespace (space, tab, LF, VT,
FF, CR) and the no-break space. -/
def jsWhitespace (c : Char) : Bool :=
  c = ' ' || c = '\t' || c = '\n' || c = '\r' || c.toNat = 11 || c.toNat = 12 ||
  c.toNat = 160

/-- The model of "s.trim()": strip leading and trailing whitespace. -/
def jsTrim (s : String) : String :=
  String.mk (((s.data.dropWhile jsWhitespace).reverse.dropWhile jsWhitespace).reverse)

/-- The model of "s.substring(n)" on ASCII prefixes: drop the first n
characters. -/
def strDrop (s : String) (n : Nat) : String :=
  String.mk (s.data.drop n)

/-- The model of "s.substring(0, n)": take the first n characters. -/
def strTake (s : String) (n : Nat) : String :=
  String.mk (s.data.take n)

/-- The model of "a || b" where a and b are optional strings and the empty
string is falsy. -/
def jsOrStr (a b : Option String) : Option String :=
  match a with
  | some s => if s = "" then b else some s
  | none => b

/-- The model of "a || b" where a is an optional number, 0 being falsy. -/
def jsOrInt (a b : Option Int) : Option Int :=
  match a with
  | some n => if n = 0 then b else some n
  | none => b

/-- The model of "a || d" for an optional string a and a default string d. -/
def jsOrDefault (a : Option String) (d : String) : String :=
  match a with
  | some s => if s = "" then d else s
  | none => d

/-- Decimal digit test, the model of the regex class backslash-d on ASCII. -/
def isDig (c : Char) : Bool :=
  48 ≤ c.toNat && c.toNat ≤ 57

/-- Membership in the regex class [whitespace, hyphen, underscore] used by the
season/episode patterns: whitespace (space, tab, LF, VT, FF, CR), - or _. -/
def isSepChar (c : Char) : Bool :=
  c = ' ' || c = '\t' || c = '\n' || c = '\r' || c.toNat = 11 || c.toNat = 12 ||
  c = '-' || c = '_'

/-- Numeric value of a non-empty decimal digit string (the model of
parseInt(s, 10) on the 1-2 digit capture groups of the season/episode
patterns). -/
def parseDigitNat (s : String) : Nat :=
  s.data.foldl (fun n c => n * 10 + (c.toNat - 48)) 0

/-- After "s" digits [sep] "e" have been consumed, consume the final 1-2
episode digits (greedy), yielding the two captured digit groups. -/
def seTail2 (d1 : String) (rest : List Char) : Option (String × String) :=
  match rest with
  | a :: rest2 =>
    if isDig a then
      match rest2 with
      | b :: _ => if isDig b then some (d1, String.mk [a, b]) else some (d1, String.mk [a])
      | [] => some (d1, String.mk [a])
    else none
  | [] => none

/-- After "s" digits [sep], expect the letter e (case-insensitive) and then
the episode digits. -/
def seAfterSep (d1 : String) (rest : List Char) : Option (String × String) :=
  match rest with
  | c :: r => if c.toLower = 'e' then seTail2 d1 r else none
  | [] => none

/-- After "s" digits, consume the optional separator greedily (preferring to
consume one separator character, backtracking to zero). -/
def seAfterSeason (d1 : String) (rest : List Char) : Option (String × String) :=
  match rest with
  | c :: r =>
    if isSepChar c then (seAfterSep d1 r).orElse (fun _ => seAfterSep d1 rest)
    else seAfterSep d1 rest
  | [] => none

/-- Attempt to match the pattern s digits{1,2} [sep]? e digits{1,2}
(case-insensitive) at the head of the character list, with the greedy
two-digit season alternative tried before the one-digit fallback. Models the
regex in detectContentType and parseSeriesInfo. -/
def matchSEAt (cs : List Char) : Option (String × String) :=
  match cs with
  | s :: rest =>
    if s.toLower = 's' then
      match rest with
      | a :: rest2 =>
        if isDig a then
          match rest2 with
          | b :: rest3 =>
            if isDig b then
              (seAfterSeason (String.mk [a, b]) rest3).orElse
                (fun _ => seAfterSeason (String.mk [a]) rest2)
            else seAfterSeason (String.mk [a]) rest2
          | [] => seAfterSeason (String.mk [a]) []
        else none
      | [] => none
    else none
  | [] => none

/-- Leftmost match of the season/episode pattern anywhere in the string. -/
def matchSEFirst : List Char → Option (String × String)
  | [] => none
  | c :: rest => (matchSEAt (c :: rest)).orElse (fun _ => matchSEFirst rest)

/-- After the leading digits of the NxM pattern, expect x (case-insensitive)
then the final 1-2 digits. -/
def xAfterDigits (d1 : String) (rest : List Char) : Option (String × String) :=
  match rest with
  | c :: r => if c.toLower = 'x' then seTail2 d1 r else none
  | [] => none

/-- Attempt to match digits{1,2} x digits{1,2} (case-insensitive) at the head
of the character list, greedy with backtracking on the first digit group. -/
def matchXAt (cs : List Char) : Option (String × String) :=
  match cs with
  | a :: rest =>
    if isDig a then
      match rest with
      | b :: rest2 =>
        if isDig b then
          (xAfterDigits (String.mk [a, b]) rest2).orElse
            (fun _ => xAfterDigits (String.mk [a]) rest)
        else xAfterDigits (String.mk [a]) rest
      | [] => none
    else none
  | [] => none

/-- Leftmost match of the NxM pattern anywhere in the string. -/
def matchXFirst : List Char → Option (String × String)
  | [] => none
  | c :: rest => (matchXAt (c :: rest)).orElse (fun _ => matchXFirst rest)

/-- The content-type keyword lists of the source, verbatim. -/
def MOVIE_KEYWORDS : List String :=
  ["filme", "filmes", "movie", "movies", "vod", "cinema", "4k filme",
   "lançamento", "lancamento"]

/-- Keywords whose presence in a group or name marks an entry as a series. -/
def SERIES_KEYWORDS : List String :=
  ["série", "series", "séries", "serie", "temporada", "episodio", "episódio",
   "s0", "e0", "season", "episode"]

/-- Content type of an item: exactly one of live, movie, series. -/
inductive ContentType
  | live
  | movie
  | series
deriving Repr, DecidableEq

/-- String form of a content type as stored in the database records. -/
def ContentType.toStr : ContentType → String
  | .live => "live"
  | .movie => "movie"
  | .series => "series"

/-- The model of detectContentType(name, group, url): season/episode pattern
in the name first, then group keywords (series before movie), then URL path
markers, then name keywords, defaulting to live. -/
def detectContentType (name group url : String) : ContentType :=
  let lowerName := lowerStr name
  let lowerGroup := lowerStr group
  let lowerUrl := lowerStr url
  if (matchSEFirst name.data).isSome || (matchXFirst name.data).isSome then .series
  else if SERIES_KEYWORDS.any (fun k => strContains lowerGroup k) then .series
  else if MOVIE_KEYWORDS.any (fun k => strContains lowerGroup k) then .movie
  else if strContains lowerUrl "/movie/" || strContains lowerUrl "/vod/" then .movie
  else if strContains lowerUrl "/series/" then .series
  else if SERIES_KEYWORDS.any (fun k => strContains lowerName k) then .series
  else if MOVIE_KEYWORDS.any (fun k => strContains lowerName k) then .movie
  else .live

/-- Whether the remainder consists of zero or more separator characters
followed by the season/episode or the NxM pattern; models the suffix
[sep]* (SE-pattern or NxM-pattern) of the series-name capture regex. -/
def sepStarThenPat : List Char → Bool
  | [] => false
  | c :: r =>
    (matchSEAt (c :: r)).isSome || (matchXAt (c :: r)).isSome ||
    (isSepChar c && sepStarThenPat r)

/-- The lazy prefix capture of the anchored series-name regex: the shortest
non-empty leading prefix after which separators followed by the season/episode
(or NxM) pattern occur. The accumulator holds the characters consumed so
far. -/
def seriesNameCaptureGo : List Char → List Char → Option (List Char)
  | _, [] => none
  | acc, c :: rest =>
    if sepStarThenPat rest then some (acc ++ [c])
    else seriesNameCaptureGo (acc ++ [c]) rest

/-- Character mapping step of the slug derivation: lowercase letters and
digits kept, every other character replaced by a hyphen. -/
def dashifyChar (c : Char) : Char :=
  if (97 ≤ c.toNat && c.toNat ≤ 122) || isDig c then c else '-'

/-- Collapse every run of consecutive hyphens to a single hyphen; together
with the per-character replacement this models replacing each maximal
non-alphanumeric run by one hyphen. -/
def collapseDashes : List Char → List Char
  | [] => []
  | [c] => [c]
  | c :: d :: rest =>
    if c = '-' && d = '-' then collapseDashes (d :: rest)
    else c :: collapseDashes (d :: rest)

/-- Remove leading and trailing hyphens. -/
def trimDashes (cs : List Char) : List Char :=
  ((cs.dropWhile (fun c => c = '-')).reverse.dropWhile (fun c => c = '-')).reverse

/-- The series-id slug of a series name: lowercased, non-alphanumeric runs
collapsed to single hyphens, leading and trailing hyphens trimmed. -/
def slugify (s : String) : String :=
  String.mk (trimDashes (collapseDashes ((lowerStr s).data.map dashifyChar)))

/-- Series information extracted from an item name. -/
structure SeriesInfo where
  seriesId : Option String := none
  seriesName : Option String := none
  seasonNum : Option Int := none
  episodeNum : Option Int := none
deriving Repr, DecidableEq

/-- The model of parseSeriesInfo(name): match the season/episode pattern
(falling back to the NxM pattern), take the prefix before the pattern as the
series name (the whole name if the anchored prefix regex fails), slugify it
into a series id, and parse the captured digit groups. -/
def parseSeriesInfo (name : String) : SeriesInfo :=
  match (matchSEFirst name.data).orElse (fun _ => matchXFirst name.data) with
  | some (d1, d2) =>
    let seriesName :=
      match seriesNameCaptureGo [] name.data with
      | some pre => jsTrim (String.mk pre)
      | none => name
    { seriesId := some (slugify seriesName)
      seriesName := some seriesName
      seasonNum := some (Int.ofNat (parseDigitNat d1))
      episodeNum := some (Int.ofNat (parseDigitNat d2)) }
  | none => {}

/-- The model of parseInt(s, 10) on an arbitrary attribute value: leading
whitespace skipped, an optional sign, then leading decimal digits; none when
no digit follows (NaN). -/
def leadingDigitsVal (cs : List Char) : Option Nat :=
  let ds := cs.takeWhile isDig
  if ds.isEmpty then none
  else some (ds.foldl (fun n c => n * 10 + (c.toNat - 48)) 0)

/-- JS parseInt with radix 10 returning none for NaN. -/
def parseIntJS (s : String) : Option Int :=
  let cs := s.data.dropWhile jsWhitespace
  match cs with
  | '-' :: rest => (leadingDigitsVal rest).map (fun n => -(Int.ofNat n))
  | '+' :: rest => (leadingDigitsVal rest).map Int.ofNat
  | _ => (leadingDigitsVal cs).map Int.ofNat

/-- Case-insensitive comparison of a (lowercase) pattern against the head of
a character list; models matching the literal part of an i-flagged regex. -/
def matchesCI : List Char → List Char → Bool
  | [], _ => true
  | _ :: _, [] => false
  | p :: ps, c :: cs => (c.toLower = p) && matchesCI ps cs

/-- After an attribute pattern with its opening quote has matched, capture
the run of non-quote characters, requiring the closing quote. -/
def captureQuoted (cs : List Char) : Option String :=
  let v := cs.takeWhile (fun c => c != '"')
  match cs.drop v.length with
  | '"' :: _ => some (String.mk v)
  | _ => none

/-- The model of line.match(/attr="([^"]*)"/i)[1]: scan for the leftmost
occurrence of the quoted attribute pattern with a closing quote and return
the capture. The pattern includes the opening quote, e.g. the characters of
the literal   tvg-id="  . -/
def findAttr (pat : List Char) (cs : List Char) : Option String :=
  match cs with
  | [] => none
  | _ :: rest =>
    (if matchesCI pat cs then captureQuoted (cs.drop pat.length) else none).orElse
      (fun _ => findAttr pat rest)

/-- The model of line.match(/,([^,]+)$/): a comma followed by at least one
non-comma character running to the end of the line; the capture is the text
after the last comma. -/
def nameAfterLastComma (line : String) : Option String :=
  let rev := line.data.reverse
  let tailPart := rev.takeWhile (fun c => c != ',')
  match rev.drop tailPart.length with
  | ',' :: _ => if tailPart.isEmpty then none else some (String.mk tailPart.reverse)
  | _ => none

/-- The pending entry produced by parsing an #EXTINF metadata line; absent
fields model undefined properties of the JS object. -/
structure PChannel where
  name : Option String := none
  group : Option String := none
  logo : Option String := none
  tvgId : Option String := none
  tvgName : Option String := none
  seriesId : Option String := none
  seasonNum : Option Int := none
  episodeNum : Option Int := none
deriving Repr, DecidableEq

/-- The model of parseExtInf(line): extract the quoted tvg attributes, the
series tags (tvg-series-id preferred over tvg-serie; season and episode tags
kept only when parseInt does not yield NaN) and the display name after the
last comma, trimmed. -/
def parseExtInfCore (line : String) : PChannel :=
  let cs := line.data
  let seasonTag := findAttr "tvg-season=\"".data cs
  let episodeTag := findAttr "tvg-episode=\"".data cs
  { tvgId := findAttr "tvg-id=\"".data cs
    tvgName := findAttr "tvg-name=\"".data cs
    logo := findAttr "tvg-logo=\"".data cs
    group := findAttr "group-title=\"".data cs
    seriesId :=
      match findAttr "tvg-series-id=\"".data cs with
      | some v => some v
      | none => findAttr "tvg-serie=\"".data cs
    seasonNum :=
      match seasonTag with
      | some v => parseIntJS v
      | none => none
    episodeNum :=
      match episodeTag with
      | some v => parseIntJS v
      | none => none
    name := (nameAfterLastComma line).map jsTrim }

/-- The body of the JS parseExtInf consists solely of total operations
(String.prototype.match with literal regexes, parseInt, trim and property
assignments), none of which can throw, so its evaluation always completes
normally; the Except wrapper records the try/catch boundary of the caller. -/
def parseExtInfE (line : String) : Except String PChannel :=
  Except.ok (parseExtInfCore line)

/-- Leading run of ASCII letters of a candidate URL followed by a colon: the
scheme, lowercased. Models the scheme acceptance of the WHATWG URL parser on
the inputs of interest. -/
def schemeOf (s : String) : Option String :=
  let letters := s.data.takeWhile (fun c => c.isAlpha)
  match s.data.drop letters.length with
  | ':' :: _ => if letters.isEmpty then none else some (String.mk (letters.map Char.toLower))
  | _ => none

/-- The model of isValidUrl(str): new URL(str) succeeds and the protocol is
http, https or rtmp. For the special schemes http and https the WHATWG
parser additionally requires the double slash and a non-empty remainder;
rtmp is a non-special scheme accepted with any (possibly empty) rest. -/
def isValidUrl (s : String) : Bool :=
  match schemeOf s with
  | some sch =>
    if sch = "http" || sch = "https" then
      strStartsWith (strDrop s (sch.length + 1)) "//" && strDrop s (sch.length + 3) != ""
    else sch = "rtmp"
  | none => false

/-- A channel, movie or series-episode record of the content model. The
identifier models crypto.randomUUID: fresh and unique per emitted item. -/
structure Channel where
  id : Nat
  name : String
  url : String
  originalUrl : Option String := none
  logo : Option String := none
  group : String
  tvgId : Option String := none
  tvgName : Option String := none
  contentType : ContentType
  isFavorite : Bool := false
  seriesId : Option String := none
  seriesName : Option String := none
  seasonNum : Option Int := none
  episodeNum : Option Int := none
  rating : Option String := none
  plot : Option String := none
  year : Option String := none
  duration : Option String := none
deriving Repr, DecidableEq

/-- The channel pushed by parseM3U when a pending entry meets a valid URL
line: name and group defaulted, the content type classified, series info
parsed from the name for series items, and the tvg series tags taking
JS-truthy precedence over the name-derived values. -/
def emitChannel (idx : Nat) (pc : PChannel) (url : String) : Channel :=
  let name := jsOrDefault pc.name "Unknown Channel"
  let group := jsOrDefault pc.group "Uncategorized"
  let contentType := detectContentType name group url
  let si := if contentType = .series then parseSeriesInfo name else {}
  { id := idx
    name := name
    url := url
    logo := pc.logo
    group := group
    tvgId := pc.tvgId
    tvgName := pc.tvgName
    contentType := contentType
    seriesId := jsOrStr pc.seriesId si.seriesId
    seriesName := si.seriesName
    seasonNum := jsOrInt pc.seasonNum si.seasonNum
    episodeNum := jsOrInt pc.episodeNum si.episodeNum }

/-- Parser state threaded through the line loop of parseM3U. The identifier
of the next emitted channel is the number of channels emitted so far. -/
structure ParseState where
  channels : List Channel := []
  errors : List String := []
  current : Option PChannel := none
  lineNumber : Nat := 0
deriving Repr, DecidableEq

/-- One iteration of the parseM3U line loop: skip blank lines and the header,
parse #EXTINF metadata (recording an error and dropping the pending entry if
it were to throw), apply #EXTGRP group overrides, and emit a channel when a
non-comment line is a valid URL (discarding the pending entry otherwise). -/
def processLine (st : ParseState) (line : String) : ParseState :=
  let st := { st with lineNumber := st.lineNumber + 1 }
  let trimmed := jsTrim line
  if trimmed = "" || trimmed = "#EXTM3U" then st
  else if strStartsWith trimmed "#EXTINF:" then
    match parseExtInfE trimmed with
    | .ok pc => { st with current := some pc }
    | .error _ =>
      { st with
        errors := st.errors ++ ["Line " ++ toString st.lineNumber ++ ": Failed to parse EXTINF"]
        current := none }
  else if strStartsWith trimmed "#EXTVLCOPT:" || strStartsWith trimmed "#EXTGRP:" then
    match st.current with
    | some pc =>
      if strStartsWith trimmed "#EXTGRP:" then
        { st with current := some { pc with group := some (jsTrim (strDrop trimmed 8)) } }
      else st
    | none => st
  else if !strStartsWith trimmed "#" then
    match st.current with
    | some pc =>
      if isValidUrl trimmed then
        { st with
          channels := st.channels ++ [emitChannel st.channels.length pc trimmed]
          current := none }
      else { st with current := none }
    | none => { st with current := none }
  else st

/-- Replace every CRLF pair by a single LF, left to right; combined with the
LF split below this models content.split over the regex CR? LF. -/
def normNL : List Char → List Char
  | '\r' :: '\n' :: rest => '\n' :: normNL rest
  | c :: rest => c :: normNL rest
  | [] => []

/-- Split a character list on a separator character. -/
def splitOnChar (sep : Char) : List Char → List (List Char)
  | [] => [[]]
  | c :: rest =>
    if c = sep then [] :: splitOnChar sep rest
    else
      match splitOnChar sep rest with
      | [] => [[c]]
      | h :: t => (c :: h) :: t

/-- The line decomposition of parseM3U: split the text over CR? LF. -/
def splitLines (content : String) : List String :=
  (splitOnChar '\n' (normNL content.data)).map String.mk

/-- Run the parseM3U line loop over a list of lines from the empty state. -/
def parseM3ULines (lines : List String) : ParseState :=
  lines.foldl processLine {}

/-- Result shape of parseM3U. -/
structure M3UParseResult where
  channels : List Channel
  errors : List String
deriving Repr, DecidableEq

/-- The model of parseM3U(content): split into lines and run the line loop,
returning the emitted channels and collected per-line errors. -/
def parseM3U (content : String) : M3UParseResult :=
  let st := parseM3ULines (splitLines content)
  { channels := st.channels, errors := st.errors }

/-- The favorites-preserving merge of the update-mode import: the playback
URLs of the favorited existing items (the Set construction of the source). -/
def favoriteUrls (existingItems : List Channel) : List String :=
  (existingItems.filter (fun c => c.isFavorite)).map (fun c => c.url)

/-- The model of the update-mode mapping: every fresh item keeps its fields
but its favorite flag becomes membership of its own URL in the favorited-URL
set of the existing items. -/
def mergeFavorites (existingItems freshItems : List Channel) : List Channel :=
  freshItems.map (fun c => { c with isFavorite := decide (c.url ∈ favoriteUrls existingItems) })

/-- A record of the channels object store: the channel spread together with
its owning playlist id, keyed by the channel id. -/
structure StoredChannel where
  channel : Channel
  playlistId : String
deriving Repr, DecidableEq

/-- A playlist as handled by the application (the channels array is carried
in memory but excluded from the persisted metadata). -/
structure Playlist where
  id : String
  name : String
  type : String
  url : Option String := none
  xtreamUrl : Option String := none
  xtreamUser : Option String := none
  xtreamPass : Option String := none
  lastUpdated : Int := 0
  channels : List Channel := []
deriving Repr, DecidableEq

/-- The persisted playlist metadata: the playlist without its channels array,
plus the denormalized channel count. -/
structure PlaylistMeta where
  id : String
  name : String
  type : String
  url : Option String := none
  xtreamUrl : Option String := none
  xtreamUser : Option String := none
  xtreamPass : Option String := none
  lastUpdated : Int := 0
  channelCount : Nat := 0
deriving Repr, DecidableEq

/-- Metadata of a playlist as written by savePlaylist. -/
def metaOf (p : Playlist) : PlaylistMeta :=
  { id := p.id, name := p.name, type := p.type, url := p.url,
    xtreamUrl := p.xtreamUrl, xtreamUser := p.xtreamUser,
    xtreamPass := p.xtreamPass, lastUpdated := p.lastUpdated,
    channelCount := p.channels.length }

/-- The two-table IndexedDB database: playlists keyed by playlist id and
channel records keyed by channel id. List order models index enumeration
order; all queries used by the claims are order-insensitive or sort
afterwards. -/
structure DBState where
  playlists : List PlaylistMeta := []
  channels : List StoredChannel := []
deriving Repr, DecidableEq

/-- The model of objectStore.put on the channels store: insert or replace the
record with the same primary key (the channel id). -/
def putChannelRec (s : List StoredChannel) (r : StoredChannel) : List StoredChannel :=
  s.filter (fun x => x.channel.id != r.channel.id) ++ [r]

/-- The model of objectStore.put on the playlists store. -/
def putPlaylistMeta (s : List PlaylistMeta) (m : PlaylistMeta) : List PlaylistMeta :=
  s.filter (fun x => x.id != m.id) ++ [m]

/-- The model of savePlaylist(playlist, options) within one readwrite
transaction: when replace is set, first delete every channel record of this
playlist (cursor walk over the by-playlist index), then put the metadata
(channels excluded, channelCount denormalized) and put the new channel batch.
The batched Promise.all writes commit in order within the transaction and are
modelled by a sequential fold. -/
def savePlaylist (db : DBState) (p : Playlist) (replace : Bool) : DBState :=
  let chs := if replace then db.channels.filter (fun r => r.playlistId != p.id) else db.channels
  { playlists := putPlaylistMeta db.playlists (metaOf p)
    channels := p.channels.foldl (fun acc c => putChannelRec acc { channel := c, playlistId := p.id }) chs }

/-- Query options of getChannels; absent fields model undefined arguments
and the JS defaults offset = 0 and limit = 100 are the field defaults. -/
structure ChannelQuery where
  playlistId : String
  searchQuery : Option String := none
  group : Option String := none
  isFavorite : Option Bool := none
  contentType : Option String := none
  offset : Nat := 0
  limit : Nat := 100
deriving Repr, DecidableEq

/-- The index read of getChannels: the candidate set through the most
selective index (the by-playlist-type index when a content type other than
the literal "all" is given, else the by-playlist index). -/
def gcBase (db : DBState) (q : ChannelQuery) : List Channel :=
  match q.contentType with
  | some ct =>
    if ct != "" && ct != "all" then
      (db.channels.filter (fun r => r.playlistId = q.playlistId && r.channel.contentType.toStr = ct)).map
        (fun r => r.channel)
    else (db.channels.filter (fun r => r.playlistId = q.playlistId)).map (fun r => r.channel)
  | none => (db.channels.filter (fun r => r.playlistId = q.playlistId)).map (fun r => r.channel)

/-- The in-memory group filter stage of getChannels (skipped for a falsy
group or the literal "all"). -/
def gcGroup (q : ChannelQuery) (base : List Channel) : List Channel :=
  match q.group with
  | some g => if g != "" && g != "all" then base.filter (fun c => c.group = g) else base
  | none => base

/-- The in-memory favorite filter stage of getChannels (skipped when the
argument is undefined). Channel records created by the parsers leave
isFavorite undefined; the model folds undefined into false, which is
faithful for every caller (the hook passes either true or undefined). -/
def gcFav (q : ChannelQuery) (base : List Channel) : List Channel :=
  match q.isFavorite with
  | some fav => base.filter (fun c => c.isFavorite = fav)
  | none => base

/-- The case-insensitive substring search stage of getChannels (skipped for
a falsy query). -/
def gcSearch (q : ChannelQuery) (base : List Channel) : List Channel :=
  match q.searchQuery with
  | some s => if s != "" then base.filter (fun c => strContains (lowerStr c.name) (lowerStr s)) else base
  | none => base

/-- The scan-then-filter part of getChannels before pagination: the index
read followed by the three sequential in-memory filter reassignments of the
source. -/
def getChannelsNoSlice (db : DBState) (q : ChannelQuery) : List Channel :=
  gcSearch q (gcFav q (gcGroup q (gcBase db q)))

/-- The model of getChannels: the filtered candidate set sliced to
the window from offset to offset + limit. -/
def getChannels (db : DBState) (q : ChannelQuery) : List Channel :=
  ((getChannelsNoSlice db q).drop q.offset).take q.limit

/-- The collation key of the alphabetical sort: localeCompare with base
sensitivity is case-insensitive; the model compares lowercased names (exact
on ASCII). -/
def collationKey (c : Channel) : String :=
  lowerStr c.name

/-- Stable insertion of a channel into an already sorted list: the channel
goes before the first element whose key is not smaller, so an earlier
element precedes later elements with an equal key. -/
def insertByName (c : Channel) : List Channel → List Channel
  | [] => [c]
  | d :: rest =>
    if collationKey d < collationKey c then d :: insertByName c rest
    else c :: d :: rest

/-- The model of sortAlphabetically: JS Array.prototype.sort is a stable
comparison sort, and every stable sort over the same key produces the same
list, here realized as stable insertion sort over the collation key. -/
def sortAlphabetically (channels : List Channel) : List Channel :=
  channels.foldr insertByName []

/-- The series grouping key: seriesId, else seriesName, else the raw channel
name, each with JS string truthiness. -/
def seriesKey (c : Channel) : String :=
  jsOrDefault c.seriesId (jsOrDefault c.seriesName c.name)

/-- Whether s digits+ e digits+ occurs at the head of the list. -/
def sPartHere : List Char → Bool
  | s :: rest =>
    if s.toLower = 's' then
      let ds := rest.takeWhile isDig
      if ds.isEmpty then false
      else
        match rest.drop ds.length with
        | e :: rest2 => e.toLower = 'e' && !(rest2.takeWhile isDig).isEmpty
        | [] => false
    else false
  | [] => false

/-- Whether the anchored-to-the-end suffix pattern whitespace* s digits+
e digits+ .* matches at the head of the list. -/
def suffixPatHere (cs : List Char) : Bool :=
  sPartHere (cs.dropWhile jsWhitespace)

/-- Remove, at the leftmost position where it matches, the suffix pattern
whitespace* s digits+ e digits+ (running to the end of the string,
case-insensitively); keep the text when the pattern never matches. -/
def stripSuffixAux : List Char → List Char
  | [] => []
  | c :: rest =>
    if suffixPatHere (c :: rest) then []
    else c :: stripSuffixAux rest

/-- Strip a trailing season/episode suffix from a raw name: the model of
name.replace of the anchored suffix regex (whitespace* S digits E digits
anything to the end, case-insensitive), then trim. -/
def stripSeasonSuffix (name : String) : String :=
  jsTrim (String.mk (stripSuffixAux name.data))

/-- The representative row stored for a series key: the first episode
encountered, with its display name, series id and series name overwritten by
the resolved series name and the grouping key. -/
def seriesRepresentative (key : String) (c : Channel) : Channel :=
  let seriesName := jsOrDefault c.seriesName (stripSeasonSuffix c.name)
  { c with name := seriesName, seriesId := some key, seriesName := some seriesName }

/-- The Map fold of groupSeriesEpisodes: walk the episodes in order, keeping
one representative per distinct series key (first occurrence wins); the
association list models the insertion-ordered Map. -/
def groupFold (acc : List (String × Channel)) : List Channel → List (String × Channel)
  | [] => acc
  | c :: rest =>
    let key := seriesKey c
    if (acc.map Prod.fst).contains key then groupFold acc rest
    else groupFold (acc ++ [(key, seriesRepresentative key c)]) rest

/-- The model of groupSeriesEpisodes: group the episodes into one
representative per series key and sort the representatives alphabetically. -/
def groupSeriesEpisodes (episodes : List Channel) : List Channel :=
  sortAlphabetically ((groupFold [] episodes).map Prod.snd)

/-- The filter tuple of the query/pagination layer: active playlist, search
text, selected group (with the favorites sentinel) and content-type filter. -/
structure FilterTuple where
  playlistId : String
  searchQuery : String := ""
  selectedGroup : Option String := none
  contentFilter : String := "all"
deriving Repr, DecidableEq

/-- The getChannels query issued by loadMore for a filter tuple: search text
passed when non-empty, the favorites sentinel turned into the favorite flag,
the group passed unless it is the sentinel or empty, the content filter
passed unless it is the literal "all", and the full set requested with the
50000 cap from offset 0. -/
def layerQuery (f : FilterTuple) : ChannelQuery :=
  { playlistId := f.playlistId
    searchQuery := if f.searchQuery = "" then none else some f.searchQuery
    group :=
      match f.selectedGroup with
      | some g => if g = "favorites" then none else if g = "" then none else some g
      | none => none
    isFavorite := if f.selectedGroup = some "favorites" then some true else none
    contentType := if f.contentFilter = "series" then some "series" else if f.contentFilter = "all" then none else some f.contentFilter
    offset := 0
    limit := 50000 }

/-- The cached sorted set built on the first page load for a filter tuple:
the grouped representatives for the series filter, the alphabetically sorted
candidates otherwise. -/
def cachedList (db : DBState) (f : FilterTuple) : List Channel :=
  if f.contentFilter = "series" then groupSeriesEpisodes (getChannels db (layerQuery f))
  else sortAlphabetically (getChannels db (layerQuery f))

/-- The page served by the k-th loadMore call (k counted from 0) for a fixed
filter tuple: the slice of the cached sorted set from k * pageSize. -/
def servePage (db : DBState) (f : FilterTuple) (pageSize k : Nat) : List Channel :=
  ((cachedList db f).drop (k * pageSize)).take pageSize

/-- The hasMore flag after the k-th page has been served: whether the items
served so far fall short of the cached total. -/
def hasMoreAfterPage (db : DBState) (f : FilterTuple) (pageSize k : Nat) : Bool :=
  decide (k * pageSize + (servePage db f pageSize k).length < (cachedList db f).length)

/-- The full filtered result set of a filter tuple, with no pagination and no
cap, sorted (grouped then sorted for the series filter): the reference value
of the pagination claim. -/
def fullResult (db : DBState) (f : FilterTuple) : List Channel :=
  if f.contentFilter = "series" then
    groupSeriesEpisodes (getChannelsNoSlice db (layerQuery f))
  else sortAlphabetically (getChannelsNoSlice db (layerQuery f))

/-- The model of the store refresh after an import: playlists re-read from
the database keep their metadata but carry an empty channels array in
memory. -/
def refreshedPlaylists (dbPlaylists : List PlaylistMeta) : List Playlist :=
  dbPlaylists.map (fun p =>
    { id := p.id, name := p.name, type := p.type, url := p.url,
      xtreamUrl := p.xtreamUrl, xtreamUser := p.xtreamUser,
      xtreamPass := p.xtreamPass, lastUpdated := p.lastUpdated,
      channels := [] })

/-- Uppercase hexadecimal digit of a value below 16. -/
def hexDigit (n : Nat) : Char :=
  if n < 10 then Char.ofNat (48 + n) else Char.ofNat (55 + n)

/-- Percent-encoding of one byte with uppercase hexadecimal digits. -/
def percentByte (b : UInt8) : String :=
  String.mk ['%', hexDigit (b.toNat / 16), hexDigit (b.toNat % 16)]

/-- Characters left unescaped by encodeURIComponent: ASCII letters, digits,
and - _ . ! ~ * ' ( ) (the marks named by codepoint below). -/
def isUnescapedURI (c : Char) : Bool :=
  let n := c.toNat
  (48 ≤ n && n ≤ 57) || (65 ≤ n && n ≤ 90) || (97 ≤ n && n ≤ 122) ||
  n = 45 || n = 95 || n = 46 || n = 33 || n = 126 || n = 42 || n = 39 ||
  n = 40 || n = 41

/-- The model of encodeURIComponent(s): unescaped characters kept, every
other character replaced by the percent-encoding of its UTF-8 bytes. -/
def encodeURIComponent (s : String) : String :=
  String.join (s.data.map (fun c =>
    if isUnescapedURI c then String.mk [c]
    else String.join ((String.utf8EncodeChar c).map percentByte)))

/-- The stream proxy prefix used to wrap playback URLs (the default value of
the STREAM_PROXY_URL environment switch). -/
def STREAM_PROXY_URL : String :=
  "/api/proxy/stream"

/-- The model of createStreamUrl(originalUrl): route the original URL through
the stream proxy endpoint. -/
def createStreamUrl (originalUrl : String) : String :=
  STREAM_PROXY_URL ++ "?url=" ++ encodeURIComponent originalUrl

/-- Xtream credentials: server URL, username and password. -/
structure XtreamCredentials where
  url : String
  username : String
  password : String
deriving Repr, DecidableEq

/-- A category of an Xtream catalog listing. -/
structure XtreamCategory where
  category_id : String
  category_name : String
deriving Repr, DecidableEq

/-- A live stream entry of the Xtream catalog. -/
structure XtreamStream where
  stream_id : Int
  name : String
  stream_icon : Option String := none
  category_id : String
deriving Repr, DecidableEq

/-- A VOD entry of the Xtream catalog. -/
structure XtreamVOD where
  stream_id : Int
  name : String
  stream_icon : Option String := none
  category_id : String
  rating : Option String := none
  plot : Option String := none
  releaseDate : Option String := none
  container_extension : Option String := none
deriving Repr, DecidableEq

/-- A series entry of the Xtream catalog. -/
structure XtreamSeries where
  series_id : Int
  name : String
  cover : Option String := none
  category_id : String
  rating : Option String := none
  plot : Option String := none
deriving Repr, DecidableEq

/-- The user_info block of the Xtream authentication response; absent fields
model properties missing from the JSON. -/
structure XUserInfo where
  auth : Option Int := none
  status : Option String := none
  max_connections : Option Int := none
  active_cons : Option Int := none
deriving Repr, DecidableEq

/-- The Xtream authentication response. -/
structure XAuthData where
  user_info : Option XUserInfo := none
  error : Option String := none
  message : Option String := none
deriving Repr, DecidableEq

/-- The catalog requests fetchXtreamChannels can issue after authenticating,
one per action parameter. -/
inductive XAction
  | getLiveCategories
  | getLiveStreams
  | getVodCategories
  | getVodStreams
  | getSeriesCategories
  | getSeries
deriving Repr, DecidableEq

/-- The remote catalog contents behind the proxy: the responses the six
post-authentication actions would return. -/
structure XServer where
  liveCategories : List XtreamCategory := []
  liveStreams : List XtreamStream := []
  vodCategories : List XtreamCategory := []
  vodStreams : List XtreamVOD := []
  seriesCategories : List XtreamCategory := []
  seriesList : List XtreamSeries := []
deriving Repr, DecidableEq

/-- The category-id to category-name lookup built from a category list via
the Map constructor; a duplicated id keeps the last entry. -/
def lookupCategory (cats : List XtreamCategory) (cid : String) : Option String :=
  (cats.reverse.find? (fun c => c.category_id = cid)).map (fun c => c.category_name)

/-- The account checks run on the authentication response, in source order:
the auth flag, the Expired, Banned and Disabled statuses, the connection
cap (a truthy max_connections with active_cons at or above it), then a
truthy error or message field anywhere in the response. Returns the thrown
message, or none when all checks pass. -/
def xtreamAuthError (authData : XAuthData) : Option String :=
  let userErr :=
    match authData.user_info with
    | some ui =>
      if ui.auth = some 0 then some "Authentication failed: Invalid username or password"
      else if ui.status = some "Expired" then some "Account expired. Please renew your subscription."
      else if ui.status = some "Banned" then some "Account has been banned."
      else if ui.status = some "Disabled" then some "Account is disabled."
      else
        match ui.max_connections, ui.active_cons with
        | some m, some a =>
          if m != 0 && a ≥ m then
            some ("Max connections reached (" ++ toString a ++ "/" ++ toString m ++
              "). Close other streams and try again.")
          else none
        | _, _ => none
    | none => none
  match userErr with
  | some e => some e
  | none =>
    match jsOrStr authData.error authData.message with
    | some m => if m = "" then none else some m
    | none => none

/-- Strip one trailing slash from the server URL: the model of
url.replace of the trailing-slash regex. -/
def stripTrailingSlash (s : String) : String :=
  match s.data.reverse with
  | '/' :: rest => String.mk rest.reverse
  | _ => s

/-- The live channels synthesized from the live catalog family. -/
def xtreamLiveChannels (creds : XtreamCredentials) (baseUrl : String)
    (server : XServer) (startId : Nat) : List Channel :=
  (List.enumFrom startId server.liveStreams).map (fun sc =>
    let stream := sc.2
    let originalUrl := baseUrl ++ "/live/" ++ creds.username ++ "/" ++ creds.password ++
      "/" ++ toString stream.stream_id ++ ".m3u8"
    { id := sc.1
      name := stream.name
      url := createStreamUrl originalUrl
      originalUrl := some originalUrl
      logo := stream.stream_icon
      group := jsOrDefault (lookupCategory server.liveCategories stream.category_id) "Live TV"
      tvgId := some (toString stream.stream_id)
      contentType := .live })

/-- The movie channels synthesized from the VOD catalog family. -/
def xtreamVodChannels (creds : XtreamCredentials) (baseUrl : String)
    (server : XServer) (startId : Nat) : List Channel :=
  (List.enumFrom startId server.vodStreams).map (fun sc =>
    let vod := sc.2
    let ext := jsOrDefault vod.container_extension "mp4"
    let originalUrl := baseUrl ++ "/movie/" ++ creds.username ++ "/" ++ creds.password ++
      "/" ++ toString vod.stream_id ++ "." ++ ext
    { id := sc.1
      name := vod.name
      url := createStreamUrl originalUrl
      originalUrl := some originalUrl
      logo := vod.stream_icon
      group := jsOrDefault (lookupCategory server.vodCategories vod.category_id) "Movies"
      tvgId := some (toString vod.stream_id)
      contentType := .movie
      rating := vod.rating
      plot := vod.plot
      year := vod.releaseDate.map (fun d => strTake d 4) })

/-- The series placeholder rows synthesized from the series catalog family:
empty playback URL and no episode numbers, episodes being fetched lazily. -/
def xtreamSeriesChannels (server : XServer) (startId : Nat) : List Channel :=
  (List.enumFrom startId server.seriesList).map (fun sc =>
    let series := sc.2
    { id := sc.1
      name := series.name
      url := ""
      logo := series.cover
      group := jsOrDefault (lookupCategory server.seriesCategories series.category_id) "Series"
      tvgId := some (toString series.series_id)
      contentType := .series
      seriesId := some (toString series.series_id)
      rating := series.rating
      plot := series.plot })

/-- The rethrow wrapper of the catch block: a message mentioning quota is
replaced by the storage-full message, any other error is rethrown as is. -/
def xtreamCatchWrap (msg : String) : String :=
  if strContains msg "quota" then
    "Browser storage is full. Try clearing site data or using a different browser."
  else msg

/-- The model of fetchXtreamChannels: check the authentication response; on
failure throw through the catch wrapper having issued no catalog request.
Otherwise issue the two requests of each family in the fixed order live,
VOD, series (the Promise.all pairs), synthesize the channels of the three
families in that order, and fail with the no-channels message when the total
is empty. Returns the result together with the list of catalog requests
issued. The freshly generated item identifiers are modelled by consecutive
numbering across the output list. -/
def fetchXtreamChannels (creds : XtreamCredentials) (authData : XAuthData)
    (server : XServer) : Except String (List Channel) × List XAction :=
  match xtreamAuthError authData with
  | some e => (Except.error (xtreamCatchWrap e), [])
  | none =>
    let baseUrl := stripTrailingSlash creds.url
    let live := xtreamLiveChannels creds baseUrl server 0
    let vod := xtreamVodChannels creds baseUrl server live.length
    let series := xtreamSeriesChannels server (live.length + vod.length)
    let allChannels := live ++ vod ++ series
    let log := [XAction.getLiveCategories, XAction.getLiveStreams,
                XAction.getVodCategories, XAction.getVodStreams,
                XAction.getSeriesCategories, XAction.getSeries]
    if allChannels.isEmpty then
      (Except.error "No channels found. The account may have no active subscriptions.", log)
    else (Except.ok allChannels, log)

/-- Decomposition of the stream URL as produced by new URL(streamUrl): the
protocol (with the trailing colon), the host, and the pathname. -/
structure UrlParts where
  protocol : String
  host : String
  pathname : String
deriving Repr, DecidableEq

/-- Index after which the last slash of the pathname occurs, the model of
pathname.lastIndexOf; none when the pathname has no slash. -/
def lastSlashIdx (s : String) : Option Nat :=
  let rev := s.data.reverse
  let afterCount := rev.takeWhile (fun c => c != '/')
  match rev.drop afterCount.length with
  | '/' :: _ => some (s.data.length - afterCount.length - 1)
  | _ => none

/-- The base URL of a manifest: protocol, host and the pathname up to (and
excluding) its last slash; substring of a negative lastIndexOf yields the
empty prefix. -/
def manifestBase (u : UrlParts) : String :=
  u.protocol ++ "//" ++ u.host ++
    (match lastSlashIdx u.pathname with
     | some i => strTake u.pathname i
     | none => "")

/-- The per-line rewrite of the HLS manifest proxy: blank and comment lines
pass through unchanged; an absolute http(s) line is routed through the
proxy; any other line containing .m3u8 or .ts is resolved against the host
(when it starts with a slash) or the base URL and routed through the proxy;
every remaining line passes through unchanged. -/
def rewriteLine (u : UrlParts) (line : String) : String :=
  let trimmed := jsTrim line
  if trimmed = "" || strStartsWith trimmed "#" then line
  else if strStartsWith trimmed "http://" || strStartsWith trimmed "https://" then
    STREAM_PROXY_URL ++ "?url=" ++ encodeURIComponent trimmed
  else if strContains trimmed ".m3u8" || strContains trimmed ".ts" then
    let absoluteUrl :=
      if strStartsWith trimmed "/" then u.protocol ++ "//" ++ u.host ++ trimmed
      else manifestBase u ++ "/" ++ trimmed
    STREAM_PROXY_URL ++ "?url=" ++ encodeURIComponent absoluteUrl
  else line

/-- The model of the manifest rewriting of the stream proxy GET handler:
split the manifest text on LF, rewrite each line, and join with LF. -/
def rewriteManifest (u : UrlParts) (text : String) : String :=
  String.intercalate "\n" ((splitOnChar '\n' text.data).map (fun cs => rewriteLine u (String.mk cs)))

/-- Sample channels used by concrete witnesses. -/
def chanFavX : Channel :=
  { id := 0, name := "a", url := "X", group := "g", contentType := .live, isFavorite := true }

/-- A fresh sample channel with the same URL, not yet favorited. -/
def chanFreshX : Channel :=
  { id := 1, name := "b", url := "X", group := "g", contentType := .live }

/-- Sample persisted playlist metadata for witnesses. -/
def metaSample : PlaylistMeta :=
  { id := "p", name := "n", type := "m3u" }

/-- The amended tag-precedence property of an emitted series item with
metadata line metaLine: the tvg-series-id tag is what parseExtInf records
(falling back to tvg-serie when absent); a non-empty recorded tag is the
emitted series id, an absent or empty one falls back to the name-derived id;
and a present non-zero season or episode tag is the emitted number, while an
absent or zero tag falls back to the value parsed from the item name. -/
def seriesTagPrecedence (metaLine : String) (c : Channel) : Prop :=
  (∀ s, findAttr "tvg-series-id=\"".data metaLine.data = some s →
    (parseExtInfCore metaLine).seriesId = some s) ∧
  (findAttr "tvg-series-id=\"".data metaLine.data = none →
    (parseExtInfCore metaLine).seriesId = findAttr "tvg-serie=\"".data metaLine.data) ∧
  (∀ s, (parseExtInfCore metaLine).seriesId = some s → s ≠ "" → c.seriesId = some s) ∧
  ((parseExtInfCore metaLine).seriesId = none ∨ (parseExtInfCore metaLine).seriesId = some "" →
    c.seriesId = (parseSeriesInfo c.name).seriesId) ∧
  (∀ n, (parseExtInfCore metaLine).seasonNum = some n → n ≠ 0 → c.seasonNum = some n) ∧
  ((parseExtInfCore metaLine).seasonNum = none ∨ (parseExtInfCore metaLine).seasonNum = some 0 →
    c.seasonNum = (parseSeriesInfo c.name).seasonNum) ∧
  (∀ n, (parseExtInfCore metaLine).episodeNum = some n → n ≠ 0 → c.episodeNum = some n) ∧
  ((parseExtInfCore metaLine).episodeNum = none ∨ (parseExtInfCore metaLine).episodeNum = some 0 →
    c.episodeNum = (parseSeriesInfo c.name).episodeNum)

/-- A stored channel of playlist p before the replace-save, used by the C2
witness. -/
def dbOld : DBState :=
  { channels :=
      [{ channel := { id := 10, name := "old", url := "http://u1", group := "g", contentType := .live },
         playlistId := "p" },
       { channel := { id := 11, name := "other", url := "http://u2", group := "g", contentType := .live },
         playlistId := "q" }] }

/-- The single new channel of the C2 witness playlist. -/
def chNew : Channel :=
  { id := 42, name := "new", url := "http://u3", group := "g", contentType := .live }

/-- The C2 witness playlist replacing the old channels of playlist p. -/
def pNew : Playlist :=
  { id := "p", name := "P", type := "m3u", channels := [chNew] }

/-- One live record of the oversized store used against the pagination
claim. -/
def bigRec (i : Nat) : StoredChannel :=
  { channel := { id := i, name := "c", url := "http://u", group := "g", contentType := .live },
    playlistId := "p" }

/-- A store holding 50001 records of one playlist: one more than the query
cap of the pagination layer. -/
def bigDB : DBState :=
  { channels := (List.range 50001).map bigRec }

/-- The trivial filter tuple: playlist p, empty search, no group, content
filter "all". -/
def allFilter : FilterTuple :=
  { playlistId := "p" }

section Lemmas

/-- Destructuring of a successful prefix test: the list starts with the head
of the pattern. -/
theorem isPrefixOf_cons_elim {a : Char} {as l : List Char}
    (h : List.isPrefixOf (a :: as) l = true) :
    ∃ t, l = a :: t ∧ List.isPrefixOf as t = true := by
  cases l with
  | nil => simp [List.isPrefixOf] at h
  | cons b t =>
    simp only [List.isPrefixOf, Bool.and_eq_true, beq_iff_eq] at h
    exact ⟨t, by rw [h.1], h.2⟩

/-- A string starting with the EXTINF marker is not blank, is not the plain
header line, and starts with the comment character. -/
theorem extinf_shape {s : String} (h : strStartsWith s "#EXTINF:" = true) :
    s ≠ "" ∧ s ≠ "#EXTM3U" ∧ strStartsWith s "#" = true := by
  obtain ⟨t, ht, hrest⟩ := isPrefixOf_cons_elim h
  refine ⟨?_, ?_, ?_⟩
  · intro he; rw [he] at ht; exact absurd ht (by simp)
  · intro he; rw [he] at h; exact absurd h (by decide)
  · cases s with
    | mk data => simp only [strStartsWith, List.isPrefixOf] at ht ⊢
                 rw [ht]; simp

/-- A successful scheme extraction implies the string begins with an ASCII
letter. -/
theorem schemeOf_head {s : String} {sch : String} (h : schemeOf s = some sch) :
    ∃ c t, s.data = c :: t ∧ c.isAlpha = true := by
  unfold schemeOf at h
  cases hd : s.data with
  | nil => rw [hd] at h; simp at h
  | cons c t =>
    rw [hd] at h
    by_cases hc : c.isAlpha = true
    · exact ⟨c, t, rfl, hc⟩
    · exfalso
      simp only [List.takeWhile_cons, hc, Bool.false_eq_true, if_false] at h
      simp only [List.length_nil, List.drop_zero, List.isEmpty_nil] at h
      split at h <;> simp_all

/-- A string accepted by isValidUrl begins with an ASCII letter, hence is
not blank, not a comment line, and not the header. -/
theorem validUrl_shape {s : String} (h : isValidUrl s = true) :
    s ≠ "" ∧ strStartsWith s "#" = false ∧ s ≠ "#EXTM3U" := by
  have hs : ∃ c t, s.data = c :: t ∧ c.isAlpha = true := by
    unfold isValidUrl at h
    split at h
    · next sch heq => exact schemeOf_head heq
    · simp at h
  obtain ⟨c, t, hd, hAlpha⟩ := hs
  have hne : c ≠ '#' := by
    intro he; rw [he] at hAlpha; exact absurd hAlpha (by decide)
  refine ⟨?_, ?_, ?_⟩
  · intro he; rw [he] at hd; exact absurd hd (by simp)
  · have hrw : strStartsWith s "#" = List.isPrefixOf ['#'] s.data := rfl
    rw [hrw, hd]
    simp [List.isPrefixOf, Ne.symm hne]
  · intro he; rw [he] at hd
    simp only [show ("#EXTM3U".data) = ['#', 'E', 'X', 'T', 'M', '3', 'U'] from rfl,
      List.cons.injEq] at hd
    exact hne hd.1.symm

end Lemmas

/-- C4: the name "Breaking Bad S01E03" is classified as series for every
group and URL (the season/episode pattern rule has top priority), and its
extracted series info is seriesName "Breaking Bad", season 1, episode 3,
with the slug "breaking-bad" as series id. -/
theorem claim_C4_series_scenario :
    (∀ group url, detectContentType "Breaking Bad S01E03" group url = .series) ∧
    parseSeriesInfo "Breaking Bad S01E03" =
      { seriesId := some "breaking-bad", seriesName := some "Breaking Bad",
        seasonNum := some 1, episodeNum := some 3 } := by
  constructor
  · intro group url
    have h : (matchSEFirst "Breaking Bad S01E03".data).isSome = true := by decide
    simp [detectContentType, h]
  · decide

/-- C3: the favorites-preserving merge is URL-keyed and order-independent:
a merged item is favorited iff some favorited existing item carries its URL;
the merge is invariant under permutation of the existing items; the merged
items carry exactly the fresh URLs in order; and in particular a fresh item
whose URL is favorited among the existing items comes out favorited. -/
theorem claim_C3_merge_url_keyed :
    (∀ E F c, c ∈ mergeFavorites E F →
      (c.isFavorite = true ↔ ∃ e ∈ E, e.isFavorite = true ∧ e.url = c.url)) ∧
    (∀ E E' F, E.Perm E' → mergeFavorites E F = mergeFavorites E' F) ∧
    (∀ E F, (mergeFavorites E F).map (fun c => c.url) = F.map (fun c => c.url)) ∧
    (∀ u E F, (∃ e ∈ E, e.isFavorite = true ∧ e.url = u) →
      ∀ c ∈ mergeFavorites E F, c.url = u → c.isFavorite = true) := by
  have hmem : ∀ (E : List Channel) (u : String),
      u ∈ favoriteUrls E ↔ ∃ e ∈ E, e.isFavorite = true ∧ e.url = u := by
    intro E u
    simp [favoriteUrls, List.mem_map, List.mem_filter, and_assoc]
  refine ⟨?_, ?_, ?_, ?_⟩
  · intro E F c hc
    obtain ⟨c0, _, rfl⟩ := List.mem_map.mp hc
    simpa using hmem E c0.url
  · intro E E' F hperm
    unfold mergeFavorites
    apply List.map_congr_left
    intro c _
    have : (c.url ∈ favoriteUrls E) ↔ (c.url ∈ favoriteUrls E') :=
      ((hperm.filter _).map _).mem_iff
    simp [decide_eq_decide.mpr this]
  · intro E F
    simp [mergeFavorites, List.map_map, Function.comp]
  · intro u E F hex c hc hurl
    obtain ⟨c0, _, rfl⟩ := List.mem_map.mp hc
    simp only at hurl ⊢
    subst hurl
    exact decide_eq_true ((hmem E c0.url).mpr hex)

/-- Witness for C3: with a favorited existing item of URL X and a fresh item
of URL X, the hypotheses hold concretely and the merged fresh item is
favorited. -/
theorem claim_C3_merge_url_keyed_witness :
    chanFavX.isFavorite = true ∧ chanFavX.url = "X" ∧
    ({ chanFreshX with isFavorite := true } : Channel).isFavorite = true := by
  refine ⟨by decide, by decide, ?_⟩
  exact claim_C3_merge_url_keyed.2.2.2 "X" [chanFavX] [chanFreshX]
    ⟨chanFavX, by decide, by decide, by decide⟩
    { chanFreshX with isFavorite := true } (by decide) (by decide)

/-- C10: after a store refresh every in-memory playlist carries an empty
channels array, so the update-mode favorites set is built from an empty
list and the merge marks no fresh channel as favorite. -/
theorem claim_C10_refresh_empty_channels :
    ∀ dbPlaylists : List PlaylistMeta,
      (∀ pl ∈ refreshedPlaylists dbPlaylists, pl.channels = []) ∧
      (∀ pl ∈ refreshedPlaylists dbPlaylists, ∀ fresh : List Channel,
        ∀ c ∈ mergeFavorites pl.channels fresh, c.isFavorite = false) := by
  intro dbPlaylists
  have hempty : ∀ pl ∈ refreshedPlaylists dbPlaylists, pl.channels = [] := by
    intro pl hpl
    obtain ⟨m, _, rfl⟩ := List.mem_map.mp hpl
    rfl
  refine ⟨hempty, ?_⟩
  intro pl hpl fresh c hc
  rw [hempty pl hpl] at hc
  obtain ⟨c0, _, rfl⟩ := List.mem_map.mp hc
  show decide (c0.url ∈ favoriteUrls []) = false
  simp [favoriteUrls]

/-- Witness for C10: refreshing one concrete playlist yields an empty
channels array, and the merged concrete fresh channel is unfavorited. -/
theorem claim_C10_refresh_empty_channels_witness :
    ({ chanFreshX with isFavorite := false } : Channel).isFavorite = false :=
  (claim_C10_refresh_empty_channels [metaSample]).2
    { id := "p", name := "n", type := "m3u", url := none, xtreamUrl := none,
      xtreamUser := none, xtreamPass := none, lastUpdated := 0, channels := [] }
    (by decide) [chanFreshX]
    { chanFreshX with isFavorite := false } (by decide)

/-- C7: an authentication response whose user_info carries auth = 0 makes
fetchXtreamChannels fail with the authentication-specific error, with no
catalog request issued and no channel returned. -/
theorem claim_C7_auth_failure :
    ∀ (creds : XtreamCredentials) (authData : XAuthData) (server : XServer)
      (ui : XUserInfo),
      authData.user_info = some ui → ui.auth = some 0 →
      fetchXtreamChannels creds authData server =
        (Except.error "Authentication failed: Invalid username or password", []) := by
  intro creds authData server ui hui hauth
  have hquota :
      strContains "Authentication failed: Invalid username or password" "quota" = false := by
    decide
  simp [fetchXtreamChannels, xtreamAuthError, hui, hauth, xtreamCatchWrap, hquota]

/-- Witness for C7: a concrete auth = 0 response fails with the
authentication error and an empty request log. -/
theorem claim_C7_auth_failure_witness :
    fetchXtreamChannels { url := "http://srv", username := "u", password := "p" }
      { user_info := some { auth := some 0 } } {} =
      (Except.error "Authentication failed: Invalid username or password", []) :=
  claim_C7_auth_failure { url := "http://srv", username := "u", password := "p" }
    { user_info := some { auth := some 0 } } {} { auth := some 0 } rfl rfl

/-- The line loop of parseM3U never records an error: the EXTINF branch
always receives a normally completed parse. -/
theorem processLine_errors (st : ParseState) (line : String) :
    (processLine st line).errors = st.errors := by
  unfold processLine parseExtInfE
  dsimp only
  repeat' split
  all_goals rfl

/-- The error list of the line loop is stable across the whole fold. -/
theorem parseM3ULines_errors (lines : List String) :
    ∀ st : ParseState, (lines.foldl processLine st).errors = st.errors := by
  induction lines with
  | nil => intro st; rfl
  | cons l rest ih => intro st; rw [List.foldl_cons, ih, processLine_errors]

/-- C9: the error list of parseM3U is empty for every input (the catch
branch guarding parseExtInf is unreachable, its body being built from total
string operations), and an EXTINF line with no extractable fields followed
by a valid URL still yields an item named Unknown Channel. -/
theorem claim_C9_error_list_empty :
    (∀ content, (parseM3U content).errors = []) ∧
    (parseM3U "#EXTINF:-1\nhttp://example.com/a").channels.map
      (fun c => (c.name, c.group, c.contentType)) =
      [("Unknown Channel", "Uncategorized", ContentType.live)] := by
  constructor
  · intro content
    exact parseM3ULines_errors (splitLines content) {}
  · decide

/-- Prefix tests compose: a string starting with p also starts with any
prefix q of p. -/
theorem strStartsWith_weaken (q : String) {s p : String}
    (hqp : strStartsWith p q = true)
    (hps : strStartsWith s p = true) : strStartsWith s q = true := by
  simp only [strStartsWith, List.isPrefixOf_iff_prefix] at *
  exact hqp.trans hps

/-- Effect of the line loop on an EXTINF metadata line: the pending entry is
replaced by the parsed attributes. -/
theorem processLine_extinf (st : ParseState) (meta : String)
    (h : strStartsWith (jsTrim meta) "#EXTINF:" = true) :
    processLine st meta =
      { st with current := some (parseExtInfCore (jsTrim meta)),
                lineNumber := st.lineNumber + 1 } := by
  obtain ⟨hne, hnh, _⟩ := extinf_shape h
  simp [processLine, parseExtInfE, hne, hnh, h]

/-- Effect of the line loop on a valid URL line when an entry is pending:
the entry is emitted with the next fresh identifier and the pending slot is
cleared. -/
theorem processLine_url (st : ParseState) (pc : PChannel) (url : String)
    (hcur : st.current = some pc)
    (hv : isValidUrl (jsTrim url) = true) :
    processLine st url =
      { st with
        channels := st.channels ++ [emitChannel st.channels.length pc (jsTrim url)]
        current := none
        lineNumber := st.lineNumber + 1 } := by
  obtain ⟨hne, hnotc, hnh⟩ := validUrl_shape hv
  have h1 : strStartsWith (jsTrim url) "#EXTINF:" = false := by
    cases hst : strStartsWith (jsTrim url) "#EXTINF:" with
    | false => rfl
    | true => exact absurd (strStartsWith_weaken "#" (by decide) hst) (by simp [hnotc])
  have h2 : strStartsWith (jsTrim url) "#EXTVLCOPT:" = false := by
    cases hst : strStartsWith (jsTrim url) "#EXTVLCOPT:" with
    | false => rfl
    | true => exact absurd (strStartsWith_weaken "#" (by decide) hst) (by simp [hnotc])
  have h3 : strStartsWith (jsTrim url) "#EXTGRP:" = false := by
    cases hst : strStartsWith (jsTrim url) "#EXTGRP:" with
    | false => rfl
    | true => exact absurd (strStartsWith_weaken "#" (by decide) hst) (by simp [hnotc])
  simp [processLine, hne, hnh, h1, h2, h3, hnotc, hcur, hv]

/-- C5: the parse is total and recovers after arbitrary malformed input: for
every preceding line list, appending one well-formed record (a metadata line
followed by a valid URL line) appends exactly its item, with the parsed
attributes of the metadata line, a fresh identifier, and the error list
unchanged. -/
theorem claim_C5_parse_total_recovers :
    ∀ (pre : List String) (meta url : String),
      strStartsWith (jsTrim meta) "#EXTINF:" = true →
      isValidUrl (jsTrim url) = true →
      (parseM3ULines (pre ++ [meta, url])).channels =
        (parseM3ULines pre).channels ++
          [emitChannel (parseM3ULines pre).channels.length
            (parseExtInfCore (jsTrim meta)) (jsTrim url)] ∧
      (parseM3ULines (pre ++ [meta, url])).errors = (parseM3ULines pre).errors := by
  intro pre meta url hm hu
  have hfold : parseM3ULines (pre ++ [meta, url]) =
      processLine (processLine (parseM3ULines pre) meta) url := by
    unfold parseM3ULines
    rw [List.foldl_append]
    rfl
  rw [hfold, processLine_extinf _ _ hm, processLine_url _ _ _ rfl hu]
  exact ⟨rfl, rfl⟩

/-- Witness for C5: after two junk lines and one record whose URL line is
invalid, a subsequent well-formed record still produces its item and the
error list stays empty. -/
theorem claim_C5_parse_total_recovers_witness :
    strStartsWith (jsTrim "#EXTINF:-1,Good") "#EXTINF:" = true ∧
    isValidUrl (jsTrim "http://ok/1") = true ∧
    ((parseM3ULines (["junk", "#EXTINF:bad", "not a url"] ++ ["#EXTINF:-1,Good", "http://ok/1"])).channels =
        (parseM3ULines ["junk", "#EXTINF:bad", "not a url"]).channels ++
          [emitChannel (parseM3ULines ["junk", "#EXTINF:bad", "not a url"]).channels.length
            (parseExtInfCore (jsTrim "#EXTINF:-1,Good")) (jsTrim "http://ok/1")] ∧
      (parseM3ULines (["junk", "#EXTINF:bad", "not a url"] ++ ["#EXTINF:-1,Good", "http://ok/1"])).errors =
        (parseM3ULines ["junk", "#EXTINF:bad", "not a url"]).errors) :=
  ⟨by decide, by decide,
    claim_C5_parse_total_recovers ["junk", "#EXTINF:bad", "not a url"]
      "#EXTINF:-1,Good" "http://ok/1" (by decide) (by decide)⟩

/-- C6 (amended): a single well-formed record classified as series obeys the
JS-truthy precedence rule: the emitted series id is the recorded series tag
(tvg-series-id, else tvg-serie) when non-empty, else the name-derived id;
season and episode numbers are the tag values when present and non-zero,
else the values parsed from the name. -/
theorem claim_C6_series_tag_precedence :
    ∀ (meta url : String),
      strStartsWith (jsTrim meta) "#EXTINF:" = true →
      isValidUrl (jsTrim url) = true →
      (parseM3ULines [meta, url]).channels.length = 1 ∧
      ∀ c ∈ (parseM3ULines [meta, url]).channels,
        c.contentType = .series → seriesTagPrecedence (jsTrim meta) c := by
  intro meta url hm hu
  have hch : (parseM3ULines [meta, url]).channels =
      [emitChannel 0 (parseExtInfCore (jsTrim meta)) (jsTrim url)] := by
    show (List.foldl processLine {} [meta, url]).channels = _
    rw [List.foldl_cons, List.foldl_cons, List.foldl_nil,
      processLine_extinf _ _ hm, processLine_url _ _ _ rfl hu]
    rfl
  rw [hch]
  refine ⟨rfl, ?_⟩
  intro c hc hser
  rcases List.mem_singleton.mp hc with rfl
  have hdet : detectContentType
      (jsOrDefault (parseExtInfCore (jsTrim meta)).name "Unknown Channel")
      (jsOrDefault (parseExtInfCore (jsTrim meta)).group "Uncategorized")
      (jsTrim url) = .series := hser
  refine ⟨?_, ?_, ?_, ?_, ?_, ?_, ?_, ?_⟩
  · intro s hs
    simp [parseExtInfCore, hs]
  · intro hnone
    simp [parseExtInfCore, hnone]
  · intro s hs hs0
    simp [emitChannel, hdet, jsOrStr, hs, hs0]
  · rintro (h0 | h0) <;> simp [emitChannel, hdet, jsOrStr, h0]
  · intro n hn hn0
    simp [emitChannel, hdet, jsOrInt, hn, hn0]
  · rintro (h0 | h0) <;> simp [emitChannel, hdet, jsOrInt, h0]
  · intro n hn hn0
    simp [emitChannel, hdet, jsOrInt, hn, hn0]
  · rintro (h0 | h0) <;> simp [emitChannel, hdet, jsOrInt, h0]

/-- Witness for C6: a record carrying tvg-series-id "abc" and tvg-season "4"
satisfies the hypotheses and the precedence property concretely. -/
theorem claim_C6_series_tag_precedence_witness :
    strStartsWith (jsTrim "#EXTINF:-1 tvg-series-id=\"abc\" tvg-season=\"4\",Show S01E02") "#EXTINF:" = true ∧
    isValidUrl (jsTrim "http://h/x") = true ∧
    ((parseM3ULines ["#EXTINF:-1 tvg-series-id=\"abc\" tvg-season=\"4\",Show S01E02", "http://h/x"]).channels.length = 1 ∧
      ∀ c ∈ (parseM3ULines ["#EXTINF:-1 tvg-series-id=\"abc\" tvg-season=\"4\",Show S01E02", "http://h/x"]).channels,
        c.contentType = .series →
          seriesTagPrecedence (jsTrim "#EXTINF:-1 tvg-series-id=\"abc\" tvg-season=\"4\",Show S01E02") c) :=
  ⟨by decide, by decide,
    claim_C6_series_tag_precedence
      "#EXTINF:-1 tvg-series-id=\"abc\" tvg-season=\"4\",Show S01E02" "http://h/x"
      (by decide) (by decide)⟩

/-- Counterexample to C6 as stated: the tags tvg-season "0" and tvg-episode
"0" are present and parse to 0, yet the emitted item carries the name-derived
season 2 and episode 5; likewise a present-but-empty tvg-series-id tag is
ignored in favour of the name-derived id. JS truthiness, not mere presence,
decides the precedence. -/
theorem claim_C6_counterexample :
    (findAttr "tvg-season=\"".data ("#EXTINF:-1 tvg-season=\"0\" tvg-episode=\"0\",Show S02E05").data = some "0" ∧
     (parseExtInfCore "#EXTINF:-1 tvg-season=\"0\" tvg-episode=\"0\",Show S02E05").seasonNum = some 0 ∧
     (parseExtInfCore "#EXTINF:-1 tvg-season=\"0\" tvg-episode=\"0\",Show S02E05").episodeNum = some 0 ∧
     (parseM3ULines ["#EXTINF:-1 tvg-season=\"0\" tvg-episode=\"0\",Show S02E05", "http://h/x"]).channels.map
       (fun c => (c.contentType, c.seasonNum, c.episodeNum)) =
       [(ContentType.series, some 2, some 5)]) ∧
    (findAttr "tvg-series-id=\"".data ("#EXTINF:-1 tvg-series-id=\"\",Show S01E02").data = some "" ∧
     (parseM3ULines ["#EXTINF:-1 tvg-series-id=\"\",Show S01E02", "http://h/x"]).channels.map
       (fun c => (c.contentType, c.seriesId)) = [(ContentType.series, some "show")]) := by
  decide

/-- Membership after a keyed put: either an old record or the new one. -/
theorem putChannelRec_mem {s : List StoredChannel} {rec r : StoredChannel}
    (h : r ∈ putChannelRec s rec) : r ∈ s ∨ r = rec := by
  unfold putChannelRec at h
  rcases List.mem_append.mp h with h | h
  · exact Or.inl (List.mem_of_mem_filter h)
  · exact Or.inr (List.mem_singleton.mp h)

/-- Membership after a batch of keyed puts: either an old record or one of
the written records. -/
theorem foldl_put_mem :
    ∀ (recs : List StoredChannel) (s : List StoredChannel) (r : StoredChannel),
      r ∈ List.foldl putChannelRec s recs → r ∈ s ∨ r ∈ recs := by
  intro recs
  induction recs with
  | nil => intro s r h; exact Or.inl h
  | cons rec rest ih =>
    intro s r h
    rw [List.foldl_cons] at h
    rcases ih _ _ h with h2 | h2
    · rcases putChannelRec_mem h2 with h3 | h3
      · exact Or.inl h3
      · exact Or.inr (h3 ▸ List.mem_cons_self _ _)
    · exact Or.inr (List.mem_cons_of_mem _ h2)

/-- A record carrying a given key and satisfying P survives a batch of keyed
puts whose records all satisfy P: later puts either leave it in place or
replace it by another P-record with the same key. -/
theorem foldl_put_witness (P : StoredChannel → Prop) :
    ∀ (recs : List StoredChannel) (s : List StoredChannel) (i : Nat),
      (∀ rec ∈ recs, P rec) →
      (∃ r ∈ s, r.channel.id = i ∧ P r) →
      ∃ r ∈ List.foldl putChannelRec s recs, r.channel.id = i ∧ P r := by
  intro recs
  induction recs with
  | nil => intro s i _ h; exact h
  | cons rec rest ih =>
    intro s i hP h
    rw [List.foldl_cons]
    apply ih _ i (fun x hx => hP x (List.mem_cons_of_mem _ hx))
    by_cases hkey : rec.channel.id = i
    · exact ⟨rec, List.mem_append_right _ (List.mem_singleton.mpr rfl), hkey,
        hP rec (List.mem_cons_self _ _)⟩
    · obtain ⟨r, hrs, hri, hrP⟩ := h
      refine ⟨r, List.mem_append_left _ (List.mem_filter.mpr ⟨hrs, ?_⟩), hri, hrP⟩
      simp only [bne_iff_ne, ne_eq, hri]
      exact fun hcontra => hkey hcontra.symm

/-- Every key of the written batch is present after the batch of keyed puts,
carried by a record satisfying P whenever all written records do. -/
theorem foldl_put_intro (P : StoredChannel → Prop) :
    ∀ (recs : List StoredChannel) (s : List StoredChannel) (i : Nat),
      i ∈ recs.map (fun r => r.channel.id) →
      (∀ rec ∈ recs, P rec) →
      ∃ r ∈ List.foldl putChannelRec s recs, r.channel.id = i ∧ P r := by
  intro recs
  induction recs with
  | nil => intro s i hi; simp at hi
  | cons rec rest ih =>
    intro s i hi hP
    rw [List.foldl_cons]
    simp only [List.map_cons, List.mem_cons] at hi
    rcases hi with hi | hi
    · apply foldl_put_witness P rest _ i (fun x hx => hP x (List.mem_cons_of_mem _ hx))
      exact ⟨rec, List.mem_append_right _ (List.mem_singleton.mpr rfl), hi.symm,
        hP rec (List.mem_cons_self _ _)⟩
    · exact ih _ i hi (fun x hx => hP x (List.mem_cons_of_mem _ hx))

/-- The channel table after a replace-save: the records of other playlists
with the new batch folded in by keyed puts. -/
theorem savePlaylist_channels (db : DBState) (p : Playlist) :
    (savePlaylist db p true).channels =
      List.foldl putChannelRec (db.channels.filter (fun r => r.playlistId != p.id))
        (p.channels.map (fun c => ({ channel := c, playlistId := p.id } : StoredChannel))) := by
  unfold savePlaylist
  rw [List.foldl_map]
  rfl

/-- Records returned by the group, favorite and search stages come from the
stage input. -/
theorem mem_gcStages {q : ChannelQuery} {base : List Channel} {c : Channel}
    (h : c ∈ gcSearch q (gcFav q (gcGroup q base))) : c ∈ base := by
  unfold gcSearch at h
  have h2 : c ∈ gcFav q (gcGroup q base) := by
    split at h
    · split at h
      · exact List.mem_of_mem_filter h
      · exact h
    · exact h
  have h3 : c ∈ gcGroup q base := by
    unfold gcFav at h2
    split at h2
    · exact List.mem_of_mem_filter h2
    · exact h2
  unfold gcGroup at h3
  split at h3
  · split at h3
    · exact List.mem_of_mem_filter h3
    · exact h3
  · exact h3

/-- Channels returned by the index stage belong to records of the queried
playlist. -/
theorem mem_gcBase {db : DBState} {q : ChannelQuery} {c : Channel}
    (h : c ∈ gcBase db q) :
    ∃ r ∈ db.channels, r.playlistId = q.playlistId ∧ c = r.channel := by
  unfold gcBase at h
  have hof : ∀ (pred : StoredChannel → Bool),
      c ∈ (db.channels.filter pred).map (fun r => r.channel) →
      (∀ r, pred r = true → r.playlistId = q.playlistId) →
      ∃ r ∈ db.channels, r.playlistId = q.playlistId ∧ c = r.channel := by
    intro pred hmem hpred
    obtain ⟨r, hr, rfl⟩ := List.mem_map.mp hmem
    obtain ⟨hr1, hr2⟩ := List.mem_filter.mp hr
    exact ⟨r, hr1, hpred r hr2, rfl⟩
  split at h
  · split at h
    · refine hof _ h ?_
      intro r hr
      simp only [Bool.and_eq_true, decide_eq_true_eq] at hr
      exact hr.1
    · refine hof _ h ?_
      intro r hr
      simpa using hr
  · refine hof _ h ?_
    intro r hr
    simpa using hr

/-- Every channel returned by the scan-then-filter query belongs to a stored
record of the queried playlist. -/
theorem mem_getChannelsNoSlice {db : DBState} {q : ChannelQuery} {c : Channel}
    (h : c ∈ getChannelsNoSlice db q) :
    ∃ r ∈ db.channels, r.playlistId = q.playlistId ∧ c = r.channel :=
  mem_gcBase (mem_gcStages h)

/-- Every channel returned by getChannels (any offset and limit) belongs to
a stored record of the queried playlist. -/
theorem mem_getChannels {db : DBState} {q : ChannelQuery} {c : Channel}
    (h : c ∈ getChannels db q) :
    ∃ r ∈ db.channels, r.playlistId = q.playlistId ∧ c = r.channel := by
  unfold getChannels at h
  exact mem_getChannelsNoSlice
    (((List.take_sublist _ _).trans (List.drop_sublist _ _)).mem h)

/-- C2: after a replace-save of playlist p, the ids stored for p.id are
exactly the ids of p.channels, every stored record of p.id is one of the new
batch (never an old record), and every getChannels query for p.id returns
only channels of the new batch. -/
theorem claim_C2_replace_save :
    ∀ (db : DBState) (p : Playlist),
      (∀ i : Nat,
        i ∈ ((savePlaylist db p true).channels.filter
              (fun r => r.playlistId = p.id)).map (fun r => r.channel.id) ↔
        i ∈ p.channels.map (fun c => c.id)) ∧
      (∀ r ∈ (savePlaylist db p true).channels, r.playlistId = p.id →
        r.channel ∈ p.channels) ∧
      (∀ q : ChannelQuery, q.playlistId = p.id →
        ∀ c ∈ getChannels (savePlaylist db p true) q, c ∈ p.channels) := by
  intro db p
  have hmix : ∀ r ∈ (savePlaylist db p true).channels, r.playlistId = p.id →
      r.channel ∈ p.channels := by
    intro r hr hpid
    rw [savePlaylist_channels] at hr
    rcases foldl_put_mem _ _ _ hr with hold | hnew
    · obtain ⟨_, hpred⟩ := List.mem_filter.mp hold
      simp only [bne_iff_ne, ne_eq] at hpred
      exact absurd hpid hpred
    · obtain ⟨c, hc, rfl⟩ := List.mem_map.mp hnew
      exact hc
  refine ⟨?_, hmix, ?_⟩
  · intro i
    constructor
    · intro hi
      obtain ⟨r, hr, rfl⟩ := List.mem_map.mp hi
      obtain ⟨hr1, hr2⟩ := List.mem_filter.mp hr
      have hpid : r.playlistId = p.id := by simpa using hr2
      exact List.mem_map.mpr ⟨r.channel, hmix r hr1 hpid, rfl⟩
    · intro hi
      rw [savePlaylist_channels]
      obtain ⟨c, hc, rfl⟩ := List.mem_map.mp hi
      have hkey : c.id ∈ (p.channels.map
          (fun c => ({ channel := c, playlistId := p.id } : StoredChannel))).map
            (fun r => r.channel.id) := by
        rw [List.map_map]
        exact List.mem_map.mpr ⟨c, hc, rfl⟩
      obtain ⟨r, hr, hri, hrP⟩ :=
        foldl_put_intro (fun r => r.playlistId = p.id) _
          (db.channels.filter (fun r => r.playlistId != p.id)) c.id hkey
          (by intro rec hrec; obtain ⟨_, _, rfl⟩ := List.mem_map.mp hrec; rfl)
      exact List.mem_map.mpr ⟨r, List.mem_filter.mpr ⟨hr, by simpa using hrP⟩, hri⟩
  · intro q hq c hc
    obtain ⟨r, hr, hpid, rfl⟩ := mem_getChannels hc
    exact hmix r hr (hq ▸ hpid)

/-- Witness for C2: saving a concrete one-channel playlist over a store
holding an old record of the same playlist, the default query for that
playlist returns only the new channel. -/
theorem claim_C2_replace_save_witness :
    ({ playlistId := "p" } : ChannelQuery).playlistId = pNew.id ∧ chNew ∈ pNew.channels :=
  ⟨by decide,
    (claim_C2_replace_save dbOld pNew).2.2 { playlistId := "p" } (by decide) chNew (by decide)⟩

/-- C8 (amended): the manifest rewrite is the LF-join of an independent
per-line mapping that preserves the number of lines; blank and comment lines
pass through unchanged; absolute http(s) lines are always routed through the
stream proxy; any other non-comment line is rewritten — resolved against the
host or the manifest base — exactly when it contains the substring .m3u8 or
.ts, and passes through unchanged otherwise (so relative URL lines without
those markers are not proxied). -/
theorem claim_C8_manifest_rewrite :
    ∀ (u : UrlParts) (text line : String),
      (rewriteManifest u text =
          String.intercalate "\n"
            ((splitOnChar '\n' text.data).map (fun cs => rewriteLine u (String.mk cs))) ∧
        ((splitOnChar '\n' text.data).map (fun cs => rewriteLine u (String.mk cs))).length =
          (splitOnChar '\n' text.data).length) ∧
      (jsTrim line = "" ∨ strStartsWith (jsTrim line) "#" = true →
        rewriteLine u line = line) ∧
      (strStartsWith (jsTrim line) "http://" = true ∨
          strStartsWith (jsTrim line) "https://" = true →
        rewriteLine u line =
          STREAM_PROXY_URL ++ "?url=" ++ encodeURIComponent (jsTrim line)) ∧
      (jsTrim line ≠ "" → strStartsWith (jsTrim line) "#" = false →
        strStartsWith (jsTrim line) "http://" = false →
        strStartsWith (jsTrim line) "https://" = false →
        strContains (jsTrim line) ".m3u8" = true ∨ strContains (jsTrim line) ".ts" = true →
        rewriteLine u line =
          STREAM_PROXY_URL ++ "?url=" ++ encodeURIComponent
            (if strStartsWith (jsTrim line) "/" = true then u.protocol ++ "//" ++ u.host ++ jsTrim line
              else manifestBase u ++ "/" ++ jsTrim line)) ∧
      (jsTrim line ≠ "" → strStartsWith (jsTrim line) "#" = false →
        strStartsWith (jsTrim line) "http://" = false →
        strStartsWith (jsTrim line) "https://" = false →
        strContains (jsTrim line) ".m3u8" = false → strContains (jsTrim line) ".ts" = false →
        rewriteLine u line = line) := by
  intro u text line
  refine ⟨⟨rfl, List.length_map _ _⟩, ?_, ?_, ?_, ?_⟩
  · rintro (h | h) <;> simp [rewriteLine, h]
  · intro h
    have hhead : ∃ t, (jsTrim line).data = 'h' :: t := by
      rcases h with h | h
      · obtain ⟨t, ht, _⟩ := isPrefixOf_cons_elim (show List.isPrefixOf ('h' :: "ttp://".data) (jsTrim line).data = true from h)
        exact ⟨t, ht⟩
      · obtain ⟨t, ht, _⟩ := isPrefixOf_cons_elim (show List.isPrefixOf ('h' :: "ttps://".data) (jsTrim line).data = true from h)
        exact ⟨t, ht⟩
    obtain ⟨t, ht⟩ := hhead
    have hne : jsTrim line ≠ "" := by
      intro he; rw [he] at ht; exact absurd ht (by simp)
    have hhash : strStartsWith (jsTrim line) "#" = false := by
      have hrw : strStartsWith (jsTrim line) "#" = List.isPrefixOf ['#'] (jsTrim line).data := rfl
      rw [hrw, ht]
      simp [List.isPrefixOf]
    rcases h with h | h <;> simp [rewriteLine, hne, hhash, h]
  · intro hne hhash hh1 hh2 hmark
    rcases hmark with h | h <;> simp [rewriteLine, hne, hhash, hh1, hh2, h]
  · intro hne hhash hh1 hh2 hm1 hm2
    simp [rewriteLine, hne, hhash, hh1, hh2, hm1, hm2]

/-- Witness for C8: a concrete absolute https segment line is routed through
the proxy with its URL percent-encoded. -/
theorem claim_C8_manifest_rewrite_witness :
    rewriteLine { protocol := "http:", host := "media.example.com", pathname := "/live/s.m3u8" }
        "https://cdn.x/v.ts" =
      STREAM_PROXY_URL ++ "?url=" ++ encodeURIComponent (jsTrim "https://cdn.x/v.ts") :=
  (claim_C8_manifest_rewrite
      { protocol := "http:", host := "media.example.com", pathname := "/live/s.m3u8" }
      "" "https://cdn.x/v.ts").2.2.1 (Or.inr (by decide))

/-- Counterexample to C8 as stated: the relative URL line segment01.aac of a
fetched manifest is a non-comment, non-blank URL line, yet the rewrite
leaves it unchanged (it contains neither .m3u8 nor .ts) instead of routing
it through the proxy endpoint. -/
theorem claim_C8_counterexample :
    rewriteManifest { protocol := "http:", host := "media.example.com", pathname := "/live/stream.m3u8" }
        "#EXTM3U\nsegment01.aac" = "#EXTM3U\nsegment01.aac" ∧
    jsTrim "segment01.aac" ≠ "" ∧
    strStartsWith (jsTrim "segment01.aac") "#" = false ∧
    strStartsWith "segment01.aac" "/api/proxy/stream" = false := by
  decide

/-- Concatenating the first n fixed-size pages of a list yields its prefix
of n times the page size. -/
theorem flatMap_pages_take (l : List Channel) (ps : Nat) :
    ∀ n, (List.range n).flatMap (fun k => (l.drop (k * ps)).take ps) = l.take (n * ps) := by
  intro n
  induction n with
  | zero => simp
  | succ n ih =>
    rw [List.range_succ, List.flatMap_append, ih]
    simp only [List.flatMap_cons, List.flatMap_nil, List.append_nil]
    rw [Nat.succ_mul, List.take_add]

/-- A take returns the whole list exactly when it reaches its length. -/
theorem take_eq_iff_len (l : List Channel) (m : Nat) : l.take m = l ↔ l.length ≤ m := by
  constructor
  · intro h
    have hlen := congrArg List.length h
    rw [List.length_take] at hlen
    omega
  · exact List.take_of_length_le

/-- Under the 50000 cap the capped query equals the uncapped one, hence the
cached sorted set is the full sorted (or grouped) result. -/
theorem cachedList_eq_fullResult {db : DBState} {f : FilterTuple}
    (hcap : (getChannelsNoSlice db (layerQuery f)).length ≤ 50000) :
    cachedList db f = fullResult db f := by
  have hget : getChannels db (layerQuery f) = getChannelsNoSlice db (layerQuery f) := by
    show ((getChannelsNoSlice db (layerQuery f)).drop 0).take 50000 = _
    rw [List.drop_zero]
    exact List.take_of_length_le hcap
  unfold cachedList fullResult
  rw [hget]

/-- The hasMore flag after page k is false exactly when the pages served so
far already exhaust the cached list. -/
theorem hasMore_iff {db : DBState} {f : FilterTuple} {ps k : Nat} :
    hasMoreAfterPage db f ps k = false ↔
      (List.range (k + 1)).flatMap (servePage db f ps) = cachedList db f := by
  have hflat : (List.range (k + 1)).flatMap (servePage db f ps) =
      (cachedList db f).take ((k + 1) * ps) := flatMap_pages_take _ ps (k + 1)
  rw [hflat, take_eq_iff_len, Nat.succ_mul]
  unfold hasMoreAfterPage servePage
  simp only [decide_eq_false_iff_not, not_lt, List.length_take, List.length_drop]
  omega

/-- The group-filter stage returns a sublist of its input. -/
theorem gcGroup_sublist (q : ChannelQuery) (base : List Channel) :
    List.Sublist (gcGroup q base) base := by
  unfold gcGroup
  split
  · split
    · exact List.filter_sublist _
    · exact List.Sublist.refl _
  · exact List.Sublist.refl _

/-- The favorite-filter stage returns a sublist of its input. -/
theorem gcFav_sublist (q : ChannelQuery) (base : List Channel) :
    List.Sublist (gcFav q base) base := by
  unfold gcFav
  split
  · exact List.filter_sublist _
  · exact List.Sublist.refl _

/-- The search stage returns a sublist of its input. -/
theorem gcSearch_sublist (q : ChannelQuery) (base : List Channel) :
    List.Sublist (gcSearch q base) base := by
  unfold gcSearch
  split
  · split
    · exact List.filter_sublist _
    · exact List.Sublist.refl _
  · exact List.Sublist.refl _

/-- The ids of the index stage form a sublist of the stored record ids. -/
theorem gcBase_ids_sublist (db : DBState) (q : ChannelQuery) :
    List.Sublist ((gcBase db q).map (fun c => c.id))
      (db.channels.map (fun r => r.channel.id)) := by
  have hgen : ∀ pred : StoredChannel → Bool,
      List.Sublist (((db.channels.filter pred).map (fun r => r.channel)).map (fun c => c.id))
        (db.channels.map (fun r => r.channel.id)) := by
    intro pred
    have hsub := List.Sublist.map (fun r : StoredChannel => r.channel.id)
      (List.filter_sublist (l := db.channels) (p := pred))
    simpa [List.map_map, Function.comp] using hsub
  unfold gcBase
  split
  · split
    · exact hgen _
    · exact hgen _
  · exact hgen _

/-- The ids of the scan-then-filter query form a sublist of the stored
record ids. -/
theorem noslice_ids_sublist (db : DBState) (q : ChannelQuery) :
    List.Sublist ((getChannelsNoSlice db q).map (fun c => c.id))
      (db.channels.map (fun r => r.channel.id)) := by
  have h1 : List.Sublist (getChannelsNoSlice db q) (gcBase db q) :=
    ((gcSearch_sublist q _).trans (gcFav_sublist q _)).trans (gcGroup_sublist q _)
  exact (List.Sublist.map (fun c : Channel => c.id) h1).trans (gcBase_ids_sublist db q)

/-- The ids of the grouped representatives form a sublist of the accumulated
and remaining episode ids: each representative keeps the id of the first
episode of its key. -/
theorem groupFold_ids_sublist :
    ∀ (l : List Channel) (acc : List (String × Channel)),
      List.Sublist ((groupFold acc l).map (fun kc => kc.2.id))
        (acc.map (fun kc => kc.2.id) ++ l.map (fun c => c.id)) := by
  intro l
  induction l with
  | nil =>
    intro acc
    show List.Sublist (acc.map (fun kc => kc.2.id)) _
    simp
  | cons c rest ih =>
    intro acc
    show List.Sublist ((groupFold acc (c :: rest)).map (fun kc => kc.2.id)) _
    unfold groupFold
    dsimp only
    split
    · exact (ih acc).trans
        (List.Sublist.append_left (List.sublist_cons_self _ _) _)
    · have hsub := ih (acc ++ [(seriesKey c, seriesRepresentative (seriesKey c) c)])
      rw [List.map_append] at hsub
      simpa [seriesRepresentative, List.append_assoc] using hsub

/-- Stable insertion produces a permutation of consing. -/
theorem insertByName_perm (c : Channel) :
    ∀ l : List Channel, (insertByName c l).Perm (c :: l) := by
  intro l
  induction l with
  | nil => exact List.Perm.refl _
  | cons d rest ih =>
    unfold insertByName
    split
    · exact (ih.cons d).trans (List.Perm.swap c d rest)
    · exact List.Perm.refl _

/-- The alphabetical sort permutes its input. -/
theorem sortAlphabetically_perm (l : List Channel) :
    (sortAlphabetically l).Perm l := by
  induction l with
  | nil => exact List.Perm.refl _
  | cons c rest ih =>
    exact (insertByName_perm c (rest.foldr insertByName [])).trans (ih.cons c)

/-- The alphabetical sort preserves length. -/
theorem sortAlphabetically_length (l : List Channel) :
    (sortAlphabetically l).length = l.length :=
  (sortAlphabetically_perm l).length_eq

/-- Alphabetical sorting preserves distinctness of ids. -/
theorem sortAlphabetically_ids_nodup {l : List Channel}
    (h : (l.map (fun c => c.id)).Nodup) :
    ((sortAlphabetically l).map (fun c => c.id)).Nodup := by
  have hperm := (sortAlphabetically_perm l).map (fun c => c.id)
  exact hperm.nodup_iff.mpr h

/-- Series grouping preserves distinctness of ids. -/
theorem groupSeries_ids_nodup {l : List Channel}
    (h : (l.map (fun c => c.id)).Nodup) :
    ((groupSeriesEpisodes l).map (fun c => c.id)).Nodup := by
  unfold groupSeriesEpisodes
  apply sortAlphabetically_ids_nodup
  have hsub := groupFold_ids_sublist l []
  simp only [List.map_nil, List.nil_append] at hsub
  have hrw : (((groupFold [] l).map Prod.snd).map (fun c => c.id)) =
      ((groupFold [] l).map (fun kc => kc.2.id)) := by
    rw [List.map_map]; rfl
  rw [hrw]
  exact List.Nodup.sublist hsub h

/-- C1 (amended): for every filter tuple whose filtered set fits the 50000
query cap, concatenating the pages served by the layer yields exactly the
fully sorted (grouped then sorted, for the series filter) filtered result
set; hasMore is false after page k exactly when the pages served so far are
the whole result; and distinct stored ids yield pages with no duplicate and
no omitted item. Beyond the cap the candidate set is truncated (see the
counterexample). -/
theorem claim_C1_pagination_invariant :
    ∀ (db : DBState) (f : FilterTuple) (ps n k : Nat),
      0 < ps →
      (getChannelsNoSlice db (layerQuery f)).length ≤ 50000 →
      ((cachedList db f).length ≤ n * ps →
        (List.range n).flatMap (servePage db f ps) = fullResult db f) ∧
      (hasMoreAfterPage db f ps k = false ↔
        (List.range (k + 1)).flatMap (servePage db f ps) = fullResult db f) ∧
      ((db.channels.map (fun r => r.channel.id)).Nodup →
        ((fullResult db f).map (fun c => c.id)).Nodup) := by
  intro db f ps n k hps hcap
  have hcache := cachedList_eq_fullResult hcap
  refine ⟨?_, ?_, ?_⟩
  · intro hn
    calc (List.range n).flatMap (servePage db f ps)
        = (cachedList db f).take (n * ps) := flatMap_pages_take _ ps n
      _ = cachedList db f := List.take_of_length_le hn
      _ = fullResult db f := hcache
  · rw [hasMore_iff, hcache]
  · intro hids
    have hnos : ((getChannelsNoSlice db (layerQuery f)).map (fun c => c.id)).Nodup :=
      List.Nodup.sublist (noslice_ids_sublist db (layerQuery f)) hids
    unfold fullResult
    split
    · exact groupSeries_ids_nodup hnos
    · exact sortAlphabetically_ids_nodup hnos

/-- Witness for C1: with a two-record store, the trivial filter for playlist
p, page size 1 and one page, the page concatenation is the full result. -/
theorem claim_C1_pagination_invariant_witness :
    (List.range 1).flatMap (servePage dbOld allFilter 1) = fullResult dbOld allFilter :=
  (claim_C1_pagination_invariant dbOld allFilter 1 1 0 (by decide) (by decide)).1 (by decide)

/-- For a store whose records all belong to playlist p, the trivial filter
tuple returns every stored channel. -/
theorem noslice_trivial (db : DBState)
    (hall : ∀ r ∈ db.channels, r.playlistId = "p") :
    getChannelsNoSlice db (layerQuery allFilter) =
      db.channels.map (fun r => r.channel) := by
  have hfil : db.channels.filter (fun r => r.playlistId = "p") = db.channels :=
    List.filter_eq_self.mpr (fun r hr => by simp [hall r hr])
  calc getChannelsNoSlice db (layerQuery allFilter)
      = (db.channels.filter (fun r => r.playlistId = "p")).map (fun r => r.channel) := rfl
    _ = db.channels.map (fun r => r.channel) := by rw [hfil]

/-- Counterexample to C1 as stated: with 50001 stored records matching the
trivial filter, the query cap of 50000 truncates the candidate set, so the
concatenation of all pages (here 1001 pages of 50) has 50000 items while the
full sorted filtered result has 50001 — one item is omitted. -/
theorem claim_C1_counterexample :
    (List.range 1001).flatMap (servePage bigDB allFilter 50) ≠ fullResult bigDB allFilter := by
  have hbig : bigDB.channels = (List.range 50001).map bigRec := by simp only [bigDB]
  have hnos : getChannelsNoSlice bigDB (layerQuery allFilter) =
      bigDB.channels.map (fun r => r.channel) := by
    apply noslice_trivial
    intro r hr
    rw [hbig] at hr
    obtain ⟨i, _, rfl⟩ := List.mem_map.mp hr
    rfl
  have hlen_nos : (getChannelsNoSlice bigDB (layerQuery allFilter)).length = 50001 := by
    rw [hnos, hbig, List.length_map, List.length_map, List.length_range]
  have hlen_cache : (cachedList bigDB allFilter).length = 50000 := by
    have hc : cachedList bigDB allFilter =
        sortAlphabetically (((getChannelsNoSlice bigDB (layerQuery allFilter)).drop 0).take 50000) := rfl
    rw [hc, sortAlphabetically_length, List.length_take, List.drop_zero, hlen_nos]
    omega
  have hlen_full : (fullResult bigDB allFilter).length = 50001 := by
    have hf : fullResult bigDB allFilter =
        sortAlphabetically (getChannelsNoSlice bigDB (layerQuery allFilter)) := rfl
    rw [hf, sortAlphabetically_length, hlen_nos]
  intro h
  have hlen := congrArg List.length h
  rw [hlen_full] at hlen
  have h2 : (List.range 1001).flatMap (servePage bigDB allFilter 50) =
      (cachedList bigDB allFilter).take (1001 * 50) := flatMap_pages_take _ 50 1001
  rw [h2, List.length_take, hlen_cache] at hlen
  exact absurd hlen (by decide)

end StreamHub
